import Mathlib

/-!
Shallow embedding of the aggregation pipeline of `fetch_data.py`
(Denver Temperature Dashboard data fetcher).

The network fetch (Steps 1-2) is an external collaborator; its result — the
per-year provider responses — is the input of every definition below.  All of
the statistical pipeline (Steps 3-10 of `main`) is embedded as pure functions.
Temperatures are modelled as exact rationals.
-/

set_option maxHeartbeats 1000000
set_option maxRecDepth 4000

namespace DenverTemp

/-- Temperatures coming from the provider, modelled as exact rationals. -/
abbrev Temp := ℚ

/-- One year's provider response, mirroring the dict returned by `fetch_year`:
parallel arrays of ISO date strings, daily highs and daily lows, where an
absent value is `none`. -/
structure YearData where
  dates : List String
  high : List (Option Temp)
  low : List (Option Temp)
deriving DecidableEq, Repr

/-- Iterating a year's parallel arrays by common index, as the source's
loops over `enumerate(data["dates"])` reading `high[i]` and `low[i]` do. -/
def YearData.days (d : YearData) : List (String × Option Temp × Option Temp) :=
  d.dates.zip (d.high.zip d.low)

/-- Source `md_key`: `date_str[5:]`, dropping the `YYYY-` prefix. -/
def md_key (s : String) : String := ⟨s.data.drop 5⟩

/-- Source `int(date_str[5:7])`: the month number parsed from the two decimal
digit characters after the year. -/
def month_num (s : String) : Nat :=
  ((s.data.drop 5).take 2).foldl (fun a c => 10 * a + (c.toNat - 48)) 0

/-- Round a rational to the nearest integer with ties going to the even
integer, which is the rounding Python's built-in `round` performs. -/
def roundHalfEven (q : ℚ) : ℤ :=
  if q - ⌊q⌋ < 1/2 then ⌊q⌋
  else if 1/2 < q - ⌊q⌋ then ⌊q⌋ + 1
  else if ⌊q⌋ % 2 = 0 then ⌊q⌋ else ⌊q⌋ + 1

/-- Python `round(x, 1)`: round to one decimal place. -/
def round1 (q : ℚ) : ℚ := (roundHalfEven (q * 10) : ℚ) / 10

/-- Python `sum(xs) / len(xs)`. -/
def mean (l : List ℚ) : ℚ := l.sum / l.length

/-- Python `max` of a list (the source only applies it to non-empty lists). -/
def listMax : List ℚ → ℚ
  | [] => 0
  | a :: t => t.foldl max a

/-- Python `min` of a list (the source only applies it to non-empty lists). -/
def listMin : List ℚ → ℚ
  | [] => 0
  | a :: t => t.foldl min a

/-! Configuration constants of the script. -/

def HIST_START_YEAR : Nat := 1996
def HIST_END_YEAR : Nat := 2025
def TRAILING_YEARS : Nat := 10
def LATITUDE : ℚ := 397392 / 10000
def LONGITUDE : ℚ := -1049903 / 10000

def MONTH_NAMES : List String :=
  ["January", "February", "March", "April", "May", "June",
   "July", "August", "September", "October", "November", "December"]

/-! The calendar axis (`base_dates`, prologue of Step 3). -/

/-- Day counts of the months of the non-leap reference year 2025; this models
the `datetime.date` iteration from 2025-01-01 to 2025-12-31. -/
def daysInMonth : Nat → Nat
  | 1 => 31 | 2 => 28 | 3 => 31 | 4 => 30 | 5 => 31 | 6 => 30
  | 7 => 31 | 8 => 31 | 9 => 30 | 10 => 31 | 11 => 30 | 12 => 31
  | _ => 0

/-- Two-digit zero-padded decimal rendering, as `strftime`'s `%m` and `%d`. -/
def fmt2 (n : Nat) : String :=
  ⟨[Char.ofNat (48 + n / 10), Char.ofNat (48 + n % 10)]⟩

/-- The "MM-DD" strings of the non-leap reference year in calendar order:
the contents of `base_dates` before the leap-day insertion. -/
def nonLeapDates : List String :=
  (List.range 12).flatMap fun mi =>
    (List.range (daysInMonth (mi + 1))).map fun di =>
      ⟨(fmt2 (mi + 1)).data ++ '-' :: (fmt2 (di + 1)).data⟩

/-- Source `base_dates`: the non-leap year's keys with "02-29" inserted
immediately after "02-28" (guarded, as in the source, by a membership test). -/
def base_dates : List String :=
  if "02-29" ∈ nonLeapDates then nonLeapDates
  else nonLeapDates.insertIdx (nonLeapDates.indexOf "02-28" + 1) "02-29"

/-! Pooling by day-of-year key (Step 1 loop body and Step 4 loop body). -/

/-- The high values appended to `all_daily[key]["highs"]`-style pools: a day
contributes its high exactly when both its high and its low are present and
its `md_key` matches the key; traversal order is year order then in-year
order. -/
def pooledHighs (years : List YearData) (key : String) : List Temp :=
  years.flatMap fun data =>
    data.days.filterMap fun d =>
      match d.2.1, d.2.2 with
      | some h, some _ => if md_key d.1 = key then some h else none
      | _, _ => none

/-- The low values appended to `all_daily[key]["lows"]`-style pools,
under the same both-present condition as `pooledHighs`. -/
def pooledLows (years : List YearData) (key : String) : List Temp :=
  years.flatMap fun data =>
    data.days.filterMap fun d =>
      match d.2.1, d.2.2 with
      | some _, some l => if md_key d.1 = key then some l else none
      | _, _ => none

/-- The `historical` dict after Step 1: year-string keys in insertion
(ascending-year) order, minus years whose fetch failed. -/
abbrev Historical := List (String × YearData)

/-- Step 1 pooling `all_daily[key]["highs"]` over every fetched year. -/
def allDailyHighs (historical : Historical) (key : String) : List Temp :=
  pooledHighs (historical.map Prod.snd) key

/-- Step 1 pooling `all_daily[key]["lows"]` over every fetched year. -/
def allDailyLows (historical : Historical) (key : String) : List Temp :=
  pooledLows (historical.map Prod.snd) key

/-- Step 4 contributing years: `range(HIST_END_YEAR - TRAILING_YEARS + 1,
HIST_END_YEAR + 1)`, each kept only when present in `historical`. -/
def trailingData (historical : Historical) : List YearData :=
  (List.range TRAILING_YEARS).filterMap fun i =>
    (historical.find? fun p =>
      p.1 == Nat.repr (HIST_END_YEAR - TRAILING_YEARS + 1 + i)).map Prod.snd

/-! Normals and trailing average (Steps 3 and 4). -/

/-- The common loop of Steps 3 and 4: for each key of `base_dates`, when both
pooled multisets are non-empty, emit the key together with the one-decimal
rounded means of the pooled highs and lows.  An entry `(md, h, l)` stands for
the source's three parallel output arrays at one common index. -/
def avgSeries (pool : String → List Temp × List Temp) : List (String × ℚ × ℚ) :=
  base_dates.filterMap fun md =>
    let highs := (pool md).1
    let lows := (pool md).2
    if highs ≠ [] ∧ lows ≠ [] then
      some (md, round1 (mean highs), round1 (mean lows))
    else none

/-- Step 3 `normals`, pooled over all fetched historical years. -/
def normals (historical : Historical) : List (String × ℚ × ℚ) :=
  avgSeries fun md => (allDailyHighs historical md, allDailyLows historical md)

/-- Step 4 `trailing_avg`, pooled over the most recent `TRAILING_YEARS`
fetched years. -/
def trailing_avg (historical : Historical) : List (String × ℚ × ℚ) :=
  avgSeries fun md =>
    (pooledHighs (trailingData historical) md,
     pooledLows (trailingData historical) md)

/-! Historical envelope (Step 5). -/

/-- Python `sorted`: ascending sort of the pooled values. -/
def sortT (l : List Temp) : List Temp := List.insertionSort (· ≤ ·) l

/-- One emitted row of the envelope's parallel arrays. -/
structure EnvEntry where
  date : String
  p10_high : ℚ
  p25_high : ℚ
  p75_high : ℚ
  p90_high : ℚ
  p10_low : ℚ
  p25_low : ℚ
  p75_low : ℚ
  p90_low : ℚ
  record_high : ℚ
  record_low : ℚ
deriving DecidableEq, Repr

/-- The Step 5 loop body for one key: skip when either sorted multiset has
fewer than 5 samples, otherwise emit the four percentiles of each multiset,
the record high and the record low, all rounded to one decimal.  The float
index `int(n * f)` truncates a nonnegative product, i.e. it is `⌊n * f⌋₊`
(exact for every sample count reachable here). -/
def envEntry (md : String) (highs0 lows0 : List Temp) : Option EnvEntry :=
  let highs := sortT highs0
  let lows := sortT lows0
  if highs.length < 5 ∨ lows.length < 5 then none
  else
    let n_h := highs.length
    let n_l := lows.length
    some {
      date := md
      p10_high := round1 (highs.getD (max 0 ⌊(n_h : ℚ) * (1/10)⌋₊) 0)
      p25_high := round1 (highs.getD (max 0 ⌊(n_h : ℚ) * (25/100)⌋₊) 0)
      p75_high := round1 (highs.getD (min (n_h - 1) ⌊(n_h : ℚ) * (75/100)⌋₊) 0)
      p90_high := round1 (highs.getD (min (n_h - 1) ⌊(n_h : ℚ) * (9/10)⌋₊) 0)
      p10_low := round1 (lows.getD (max 0 ⌊(n_l : ℚ) * (1/10)⌋₊) 0)
      p25_low := round1 (lows.getD (max 0 ⌊(n_l : ℚ) * (25/100)⌋₊) 0)
      p75_low := round1 (lows.getD (min (n_l - 1) ⌊(n_l : ℚ) * (75/100)⌋₊) 0)
      p90_low := round1 (lows.getD (min (n_l - 1) ⌊(n_l : ℚ) * (9/10)⌋₊) 0)
      record_high := round1 (listMax highs)
      record_low := round1 (listMin lows) }

/-- Step 5 `historical_envelope`, one entry per sufficiently sampled key of
`base_dates`. -/
def historical_envelope (historical : Historical) : List EnvEntry :=
  base_dates.filterMap fun md =>
    envEntry md (allDailyHighs historical md) (allDailyLows historical md)

/-- The claim's nearest-rank index formula `clamp(floor(n * p), 0, n - 1)`,
written from the specification text for comparison with the code. -/
def specClamp (n : Nat) (p : ℚ) : Nat := min (max ⌊(n : ℚ) * p⌋₊ 0) (n - 1)

/-! Monthly statistics and records (Step 6). -/

/-- The `monthly_hist[m]["highs"]` pooling: highs of valid days (both values
present) of calendar month `m`, over every fetched historical year. -/
def monthlyHistHighs (historical : Historical) (m : Nat) : List Temp :=
  (historical.map Prod.snd).flatMap fun data =>
    data.days.filterMap fun d =>
      match d.2.1, d.2.2 with
      | some h, some _ => if month_num d.1 = m then some h else none
      | _, _ => none

/-- The `monthly_hist[m]["lows"]` pooling, symmetric to `monthlyHistHighs`. -/
def monthlyHistLows (historical : Historical) (m : Nat) : List Temp :=
  (historical.map Prod.snd).flatMap fun data =>
    data.days.filterMap fun d =>
      match d.2.1, d.2.2 with
      | some _, some l => if month_num d.1 = m then some l else none
      | _, _ => none

/-- The running record state of `monthly_records[m]`, with the source's
sentinel defaults `-999`, `999` and empty year strings. -/
structure RecState where
  record_high : ℚ
  record_high_year : String
  record_low : ℚ
  record_low_year : String
deriving DecidableEq, Repr

def initRec : RecState := ⟨-999, "", 999, ""⟩

/-- One day of the records loop: a present high strictly above the running
record high replaces it (together with its year), independently a present low
strictly below the running record low replaces it.  Note the source does not
require the other value of the day to be present here. -/
def recUpdate (st : RecState) (yr : String) (h l : Option Temp) : RecState :=
  let st1 :=
    match h with
    | some hv =>
        if hv > st.record_high then
          { st with record_high := hv, record_high_year := yr }
        else st
    | none => st
  match l with
  | some lv =>
      if lv < st1.record_low then
        { st1 with record_low := lv, record_low_year := yr }
      else st1
  | none => st1

/-- One day of the records loop lifted to the whole month-indexed table. -/
def recStep (st : Nat → RecState) (yr : String)
    (d : String × Option Temp × Option Temp) : Nat → RecState :=
  fun m' => if m' = month_num d.1 then recUpdate (st m') yr d.2.1 d.2.2 else st m'

/-- The records fold over an explicit stream of (year, day) pairs. -/
def recFold (l : List (String × (String × Option Temp × Option Temp)))
    (st : Nat → RecState) : Nat → RecState :=
  l.foldl (fun st e => recStep st e.1 e.2) st

/-- The full (year, day) traversal stream of the Step 6 records loop:
years in dict insertion order, days in series order. -/
def allDays (historical : Historical) :
    List (String × (String × Option Temp × Option Temp)) :=
  historical.flatMap fun p => p.2.days.map fun d => (p.1, d)

/-- Step 6 `monthly_records`: the nested loop over `historical.items()` and
each year's days, starting from the sentinel defaults. -/
def monthly_records (historical : Historical) : Nat → RecState :=
  historical.foldl
    (fun st p => p.2.days.foldl (fun st d => recStep st p.1 d) st)
    (fun _ => initRec)

/-- The (year, high) pairs of a (year, day) stream that feed the record-high
updates of month `m`: the days of that month whose high is present. -/
def hiEvents (L : List (String × (String × Option Temp × Option Temp)))
    (m : Nat) : List (String × ℚ) :=
  L.filterMap fun e =>
    match e.2.2.1 with
    | some h => if month_num e.2.1 = m then some (e.1, h) else none
    | none => none

/-- The (year, low) pairs of a (year, day) stream that feed the record-low
updates of month `m`. -/
def loEvents (L : List (String × (String × Option Temp × Option Temp)))
    (m : Nat) : List (String × ℚ) :=
  L.filterMap fun e =>
    match e.2.2.2 with
    | some l => if month_num e.2.1 = m then some (e.1, l) else none
    | none => none

/-- The (year, high) stream of month `m` over the whole records traversal:
every day of that month whose high is present, in traversal order. -/
def monthHighEvents (historical : Historical) (m : Nat) : List (String × ℚ) :=
  hiEvents (allDays historical) m

/-- The (year, low) stream of month `m` over the whole records traversal. -/
def monthLowEvents (historical : Historical) (m : Nat) : List (String × ℚ) :=
  loEvents (allDays historical) m

/-- The record-high projection of the records loop on one month's event
stream: strict improvement replaces value and year. -/
def highRun (l : List (String × ℚ)) (c : ℚ) (y : String) : ℚ × String :=
  match l with
  | [] => (c, y)
  | e :: t => if c < e.2 then highRun t e.2 e.1 else highRun t c y

/-- The record-low projection, symmetric to `highRun`. -/
def lowRun (l : List (String × ℚ)) (c : ℚ) (y : String) : ℚ × String :=
  match l with
  | [] => (c, y)
  | e :: t => if e.2 < c then lowRun t e.2 e.1 else lowRun t c y

/-- The `current_monthly[m]["highs"]` pooling over the current-year series
(valid days only). -/
def currentMonthlyHighs (current : YearData) (m : Nat) : List Temp :=
  current.days.filterMap fun d =>
    match d.2.1, d.2.2 with
    | some h, some _ => if month_num d.1 = m then some h else none
    | _, _ => none

/-- The `current_monthly[m]["lows"]` pooling over the current-year series. -/
def currentMonthlyLows (current : YearData) (m : Nat) : List Temp :=
  current.days.filterMap fun d =>
    match d.2.1, d.2.2 with
    | some _, some l => if month_num d.1 = m then some l else none
    | _, _ => none

/-- One value of the output's `monthly` mapping. -/
structure MonthlyStat where
  avg_high : Option ℚ
  avg_low : Option ℚ
  normal_high : Option ℚ
  normal_low : Option ℚ
  record_high : Option ℚ
  record_high_year : String
  record_low : Option ℚ
  record_low_year : String
  departure_high : Option ℚ
  departure_low : Option ℚ
deriving DecidableEq, Repr

/-- The Step 6 assembly of one month's entry (the body of `for m in
range(1, 13)`). -/
def monthlyEntry (historical : Historical) (current : YearData) (m : Nat) :
    MonthlyStat :=
  let hist_h := monthlyHistHighs historical m
  let hist_l := monthlyHistLows historical m
  let normal_high := if hist_h ≠ [] then some (round1 (mean hist_h)) else none
  let normal_low := if hist_l ≠ [] then some (round1 (mean hist_l)) else none
  let cur_h := currentMonthlyHighs current m
  let cur_l := currentMonthlyLows current m
  let avg_high := if cur_h ≠ [] then some (round1 (mean cur_h)) else none
  let avg_low := if cur_l ≠ [] then some (round1 (mean cur_l)) else none
  let recs := monthly_records historical m
  { avg_high := avg_high
    avg_low := avg_low
    normal_high := normal_high
    normal_low := normal_low
    record_high := if recs.record_high > -999 then some recs.record_high else none
    record_high_year := recs.record_high_year
    record_low := if recs.record_low < 999 then some recs.record_low else none
    record_low_year := recs.record_low_year
    departure_high :=
      match avg_high, normal_high with
      | some a, some n => some (round1 (a - n))
      | _, _ => none
    departure_low :=
      match avg_low, normal_low with
      | some a, some n => some (round1 (a - n))
      | _, _ => none }

/-- The `monthly` output mapping: month names in order, each with its
Step 6 entry. -/
def monthlyTable (historical : Historical) (current : YearData) :
    List (String × MonthlyStat) :=
  (List.range 12).map fun i =>
    (MONTH_NAMES.getD i "", monthlyEntry historical current (i + 1))

/-- Step 7 anomalies: months in order whose high departure is non-null,
emitted as (3-letter month name, high departure, low departure as stored). -/
def anomalies (monthly : List (String × MonthlyStat)) :
    List (String × ℚ × Option ℚ) :=
  monthly.filterMap fun p =>
    match p.2.departure_high with
    | some dh => some (⟨p.1.data.take 3⟩, dh, p.2.departure_low)
    | none => none

/-! Summary statistics (Step 8). -/

structure Summary where
  today_high : Option Temp
  today_low : Option Temp
  today_date : Option String
  ytd_avg_high : Option ℚ
  ytd_normal_avg_high : Option ℚ
  hottest_date : Option String
  hottest_temp : Option Temp
  coldest_date : Option String
  coldest_temp : Option Temp
  days_below_freezing : Nat
  days_above_90 : Nat
deriving DecidableEq, Repr

/-- The normal highs looked up for each current-year date whose `md_key`
appears among the normals' dates (first index, as `list.index` does);
dates without a normals entry are skipped. -/
def ytdNormalHighs (normalsSeries : List (String × ℚ × ℚ))
    (current : YearData) : List ℚ :=
  current.dates.filterMap fun ds =>
    (normalsSeries.find? fun e => e.1 == md_key ds).map fun e => e.2.1

/-- Step 8: the summary over the current-year series.  The "today" loop scans
from the most recent day backwards for one with both values present; the
hottest/coldest folds use the source's `-999`/`999` sentinels and strict
comparisons (first occurrence wins ties); the two counts require a present
value meeting an inclusive threshold. -/
def buildSummary (normalsSeries : List (String × ℚ × ℚ))
    (current : YearData) : Summary :=
  let today := current.days.reverse.find? fun d => d.2.1.isSome && d.2.2.isSome
  let valid_highs := current.high.filterMap id
  let ytd_normal_highs := ytdNormalHighs normalsSeries current
  let hottest := current.days.foldl
    (fun acc d =>
      match d.2.1 with
      | some h => if h > acc.1 then (h, some d.1) else acc
      | none => acc) ((-999 : ℚ), (none : Option String))
  let coldest := current.days.foldl
    (fun acc d =>
      match d.2.2 with
      | some l => if l < acc.1 then (l, some d.1) else acc
      | none => acc) ((999 : ℚ), (none : Option String))
  { today_high := today.map fun d => d.2.1.getD 0
    today_low := today.map fun d => d.2.2.getD 0
    today_date := today.map fun d => d.1
    ytd_avg_high :=
      if valid_highs ≠ [] then some (round1 (mean valid_highs)) else none
    ytd_normal_avg_high :=
      if ytd_normal_highs ≠ [] then some (round1 (mean ytd_normal_highs))
      else none
    hottest_date := hottest.2
    hottest_temp := if hottest.1 > -999 then some hottest.1 else none
    coldest_date := coldest.2
    coldest_temp := if coldest.1 < 999 then some coldest.1 else none
    days_below_freezing :=
      current.low.countP fun l =>
        match l with
        | some v => decide (v ≤ 32)
        | none => false
    days_above_90 :=
      current.high.countP fun h =>
        match h with
        | some v => decide (90 ≤ v)
        | none => false }

/-! Output assembly (Steps 9 and 10). -/

structure Location where
  name : String
  lat : ℚ
  lon : ℚ
  elevation : String
deriving DecidableEq, Repr

/-- A raw series as written to the output: dates unchanged, every present
temperature rounded to one decimal (Step 9, and `current_year` in Step 10). -/
structure SeriesOut where
  dates : List String
  high : List (Option ℚ)
  low : List (Option ℚ)
deriving DecidableEq, Repr

def roundSeries (d : YearData) : SeriesOut :=
  ⟨d.dates, d.high.map (Option.map round1), d.low.map (Option.map round1)⟩

/-- The single document written once per run. -/
structure OutputDoc where
  generated_at : String
  year : Nat
  location : Location
  current_year : SeriesOut
  trailing_avg : List (String × ℚ × ℚ)
  normals : List (String × ℚ × ℚ)
  historical_envelope : List EnvEntry
  historical_years : List (String × SeriesOut)
  monthly : List (String × MonthlyStat)
  anomalies : List (String × ℚ × Option ℚ)
  summary : Summary

/-- Steps 3-10 as one pure function of the fetched data: `historical` and
`current_data` are the provider responses, `currentYear` is the run's
configured year and `now` the generation timestamp. -/
def buildOutput (historical : Historical) (current_data : YearData)
    (currentYear : Nat) (now : String) : OutputDoc :=
  { generated_at := now
    year := currentYear
    location := ⟨"Denver, CO", LATITUDE, LONGITUDE, "5,280 ft"⟩
    current_year := roundSeries current_data
    trailing_avg := trailing_avg historical
    normals := normals historical
    historical_envelope := historical_envelope historical
    historical_years := historical.map fun p => (p.1, roundSeries p.2)
    monthly := monthlyTable historical current_data
    anomalies := anomalies (monthlyTable historical current_data)
    summary := buildSummary (normals historical) current_data }

/-- The output with its generation timestamp blanked, used to compare two
runs up to the `generated_at` field. -/
def stripGenerated (o : OutputDoc) : OutputDoc := { o with generated_at := "" }

/-! Concrete provider responses used as witnesses and counterexamples. -/

/-- Ten historical years, each supplying one valid observation of "01-01";
the year keys fall inside the trailing window. -/
def W10 : Historical :=
  [("2016", ⟨["2016-01-01"], [some 10], [some 0]⟩),
   ("2017", ⟨["2017-01-01"], [some 20], [some 2]⟩),
   ("2018", ⟨["2018-01-01"], [some 30], [some 4]⟩),
   ("2019", ⟨["2019-01-01"], [some 40], [some 6]⟩),
   ("2020", ⟨["2020-01-01"], [some 50], [some 8]⟩),
   ("2021", ⟨["2021-01-01"], [some 60], [some 10]⟩),
   ("2022", ⟨["2022-01-01"], [some 70], [some 12]⟩),
   ("2023", ⟨["2023-01-01"], [some 80], [some 14]⟩),
   ("2024", ⟨["2024-01-01"], [some 90], [some 16]⟩),
   ("2025", ⟨["2025-01-01"], [some 100], [some 18]⟩)]

/-- The highs pooled from `W10` for "01-01". -/
def W10highs : List Temp := [10, 20, 30, 40, 50, 60, 70, 80, 90, 100]

/-- The lows pooled from `W10` for "01-01". -/
def W10lows : List Temp := [0, 2, 4, 6, 8, 10, 12, 14, 16, 18]

/-- The envelope row the Step 5 loop emits for "01-01" from `W10`. -/
def W10env : EnvEntry :=
  { date := "01-01"
    p10_high := round1 20
    p25_high := round1 30
    p75_high := round1 80
    p90_high := round1 100
    p10_low := round1 2
    p25_low := round1 4
    p75_low := round1 14
    p90_low := round1 18
    record_high := round1 100
    record_low := round1 0 }

/-- One year whose July has a 100-degree high on a day with a missing low
(an invalid day) and a fully valid 50/40 day. -/
def CE3 : Historical :=
  [("1996", ⟨["1996-07-01", "1996-07-02"], [some 100, some 50], [none, some 40]⟩)]

/-- Two years tied at a 50-degree July high and a 10-degree July low. -/
def TIE : Historical :=
  [("1996", ⟨["1996-07-01"], [some 50], [some 10]⟩),
   ("1997", ⟨["1997-07-01"], [some 50], [some 10]⟩)]

/-- One year whose January has a single day with a present high and a
missing low, hence zero valid January days. -/
def CE5 : Historical := [("1996", ⟨["1996-01-01"], [some 50], [none]⟩)]

/-- An empty current-year series. -/
def emptyYear : YearData := ⟨[], [], []⟩

/-- A current-year series whose lows are the specification's scenario
`[20, 32, 33, None, 31]`. -/
def C6cur : YearData :=
  ⟨["2026-01-01", "2026-01-02", "2026-01-03", "2026-01-04", "2026-01-05"],
   [some 95, some 50, none, some 91, some 89],
   [some 20, some 32, some 33, none, some 31]⟩

/-! Helper lemmas on rounding. -/

theorem roundHalfEven_intCast (z : ℤ) : roundHalfEven (z : ℚ) = z := by
  unfold roundHalfEven
  rw [Int.floor_intCast]
  norm_num

theorem round1_intCast (z : ℤ) : round1 (z : ℚ) = z := by
  unfold round1
  rw [show ((z : ℚ) * 10) = ((z * 10 : ℤ) : ℚ) by push_cast; ring,
    roundHalfEven_intCast]
  push_cast
  ring

theorem roundHalfEven_le {a b : ℚ} (hab : a ≤ b) :
    roundHalfEven a ≤ roundHalfEven b := by
  have hf : ⌊a⌋ ≤ ⌊b⌋ := Int.floor_le_floor hab
  unfold roundHalfEven
  rcases lt_or_eq_of_le hf with hlt | heq
  · split_ifs <;> omega
  · rw [← heq]
    have h1 : a - (⌊a⌋ : ℚ) ≤ b - (⌊a⌋ : ℚ) := by linarith
    split_ifs <;> first | omega | linarith

theorem round1_le {a b : ℚ} (hab : a ≤ b) : round1 a ≤ round1 b := by
  unfold round1
  have h1 : roundHalfEven (a * 10) ≤ roundHalfEven (b * 10) :=
    roundHalfEven_le (by linarith)
  have h2 : ((roundHalfEven (a * 10) : ℤ) : ℚ) ≤ (roundHalfEven (b * 10) : ℚ) := by
    exact_mod_cast h1
  linarith

/-! Helper lemmas on list maxima and minima. -/

theorem le_foldl_max (t : List ℚ) : ∀ c : ℚ, c ≤ t.foldl max c := by
  induction t with
  | nil => intro c; simp
  | cons a t ih =>
    intro c
    exact le_trans (le_max_left c a) (ih (max c a))

theorem mem_le_foldl_max (t : List ℚ) : ∀ c : ℚ, ∀ x ∈ t, x ≤ t.foldl max c := by
  induction t with
  | nil => intro c x hx; cases hx
  | cons a t ih =>
    intro c x hx
    rcases List.mem_cons.mp hx with rfl | hx
    · exact le_trans (le_max_right c x) (le_foldl_max t (max c x))
    · exact ih (max c a) x hx

theorem foldl_max_of_le (t : List ℚ) :
    ∀ c : ℚ, (∀ x ∈ t, x ≤ c) → t.foldl max c = c := by
  induction t with
  | nil => intro c _; rfl
  | cons a t ih =>
    intro c h
    have ha : max c a = c := max_eq_left (h a (List.mem_cons_self a t))
    simp only [List.foldl_cons, ha]
    exact ih c fun x hx => h x (List.mem_cons_of_mem a hx)

theorem foldl_max_mem (t : List ℚ) :
    ∀ c : ℚ, t.foldl max c = c ∨ t.foldl max c ∈ t := by
  induction t with
  | nil => intro c; left; rfl
  | cons a t ih =>
    intro c
    rcases ih (max c a) with h | h
    · rcases max_choice c a with hm | hm
      · left; simpa [hm] using h
      · right
        simp only [List.foldl_cons]
        rw [h, hm]
        exact List.mem_cons_self a t
    · right
      exact List.mem_cons_of_mem a h

theorem le_listMax {l : List ℚ} {x : ℚ} (hx : x ∈ l) : x ≤ listMax l := by
  cases l with
  | nil => cases hx
  | cons a t =>
    unfold listMax
    rcases List.mem_cons.mp hx with rfl | hx
    · exact le_foldl_max t x
    · exact mem_le_foldl_max t a x hx

theorem listMax_mem {l : List ℚ} (hl : l ≠ []) : listMax l ∈ l := by
  cases l with
  | nil => exact absurd rfl hl
  | cons a t =>
    show t.foldl max a ∈ a :: t
    rcases foldl_max_mem t a with h | h
    · rw [h]; exact List.mem_cons_self a t
    · exact List.mem_cons_of_mem a h

theorem foldl_max_eq_listMax {l : List ℚ} {c : ℚ} (hl : l ≠ [])
    (hall : ∀ x ∈ l, c ≤ x) : l.foldl max c = listMax l := by
  cases l with
  | nil => exact absurd rfl hl
  | cons a t =>
    unfold listMax
    simp only [List.foldl_cons]
    rw [max_eq_right (hall a (List.mem_cons_self a t))]

theorem foldl_min_le (t : List ℚ) : ∀ c : ℚ, t.foldl min c ≤ c := by
  induction t with
  | nil => intro c; simp
  | cons a t ih =>
    intro c
    exact le_trans (ih (min c a)) (min_le_left c a)

theorem foldl_min_le_mem (t : List ℚ) : ∀ c : ℚ, ∀ x ∈ t, t.foldl min c ≤ x := by
  induction t with
  | nil => intro c x hx; cases hx
  | cons a t ih =>
    intro c x hx
    rcases List.mem_cons.mp hx with rfl | hx
    · exact le_trans (foldl_min_le t (min c x)) (min_le_right c x)
    · exact ih (min c a) x hx

theorem foldl_min_of_le (t : List ℚ) :
    ∀ c : ℚ, (∀ x ∈ t, c ≤ x) → t.foldl min c = c := by
  induction t with
  | nil => intro c _; rfl
  | cons a t ih =>
    intro c h
    have ha : min c a = c := min_eq_left (h a (List.mem_cons_self a t))
    simp only [List.foldl_cons, ha]
    exact ih c fun x hx => h x (List.mem_cons_of_mem a hx)

theorem foldl_min_mem (t : List ℚ) :
    ∀ c : ℚ, t.foldl min c = c ∨ t.foldl min c ∈ t := by
  induction t with
  | nil => intro c; left; rfl
  | cons a t ih =>
    intro c
    rcases ih (min c a) with h | h
    · rcases min_choice c a with hm | hm
      · left; simpa [hm] using h
      · right
        simp only [List.foldl_cons]
        rw [h, hm]
        exact List.mem_cons_self a t
    · right
      exact List.mem_cons_of_mem a h

theorem listMin_le {l : List ℚ} {x : ℚ} (hx : x ∈ l) : listMin l ≤ x := by
  cases l with
  | nil => cases hx
  | cons a t =>
    unfold listMin
    rcases List.mem_cons.mp hx with rfl | hx
    · exact foldl_min_le t x
    · exact foldl_min_le_mem t a x hx

theorem listMin_mem {l : List ℚ} (hl : l ≠ []) : listMin l ∈ l := by
  cases l with
  | nil => exact absurd rfl hl
  | cons a t =>
    show t.foldl min a ∈ a :: t
    rcases foldl_min_mem t a with h | h
    · rw [h]; exact List.mem_cons_self a t
    · exact List.mem_cons_of_mem a h

theorem foldl_min_eq_listMin {l : List ℚ} {c : ℚ} (hl : l ≠ [])
    (hall : ∀ x ∈ l, x ≤ c) : l.foldl min c = listMin l := by
  cases l with
  | nil => exact absurd rfl hl
  | cons a t =>
    unfold listMin
    simp only [List.foldl_cons]
    rw [min_eq_right (hall a (List.mem_cons_self a t))]

/-! Helper lemmas on sorting and indexing. -/

theorem sortT_sorted (l : List Temp) : (sortT l).Sorted (· ≤ ·) :=
  List.sorted_insertionSort (· ≤ ·) l

theorem sortT_perm (l : List Temp) : (sortT l).Perm l :=
  List.perm_insertionSort (· ≤ ·) l

theorem sortT_length (l : List Temp) : (sortT l).length = l.length :=
  List.length_insertionSort (· ≤ ·) l

theorem sortT_mem {l : List Temp} {x : Temp} : x ∈ sortT l ↔ x ∈ l :=
  (sortT_perm l).mem_iff

theorem listMax_sortT {l : List Temp} (hl : l ≠ []) :
    listMax (sortT l) = listMax l := by
  have hs : sortT l ≠ [] := by
    intro h
    exact hl (List.eq_nil_of_length_eq_zero (by rw [← sortT_length l, h]; rfl))
  apply le_antisymm
  · exact le_listMax (sortT_mem.mp (listMax_mem hs))
  · exact le_listMax (sortT_mem.mpr (listMax_mem hl))

theorem listMin_sortT {l : List Temp} (hl : l ≠ []) :
    listMin (sortT l) = listMin l := by
  have hs : sortT l ≠ [] := by
    intro h
    exact hl (List.eq_nil_of_length_eq_zero (by rw [← sortT_length l, h]; rfl))
  apply le_antisymm
  · exact listMin_le (sortT_mem.mpr (listMin_mem hl))
  · exact listMin_le (sortT_mem.mp (listMin_mem hs))

theorem getD_mem {l : List ℚ} {i : Nat} (hi : i < l.length) : l.getD i 0 ∈ l := by
  rw [List.getD_eq_getElem?_getD, List.getElem?_eq_getElem hi]
  exact List.getElem_mem hi

theorem sorted_getD_le {l : List ℚ} (hs : l.Sorted (· ≤ ·)) {i j : Nat}
    (hij : i ≤ j) (hj : j < l.length) : l.getD i 0 ≤ l.getD j 0 := by
  have hi : i < l.length := lt_of_le_of_lt hij hj
  have h := hs.rel_get_of_le (a := ⟨i, hi⟩) (b := ⟨j, hj⟩) hij
  simpa [List.getD_eq_getElem?_getD, List.getElem?_eq_getElem, hi, hj,
    List.get_eq_getElem] using h

theorem sorted_le_getD_last {l : List ℚ} (hs : l.Sorted (· ≤ ·)) {x : ℚ}
    (hx : x ∈ l) : x ≤ l.getD (l.length - 1) 0 := by
  obtain ⟨⟨i, hi⟩, rfl⟩ := List.mem_iff_get.mp hx
  have h := sorted_getD_le hs (i := i) (j := l.length - 1) (by omega) (by omega)
  have hg : l.getD i 0 = l.get ⟨i, hi⟩ := by
    simp [List.getD_eq_getElem?_getD, List.getElem?_eq_getElem hi,
      List.get_eq_getElem]
  rw [hg] at h
  exact h

/-! Helper lemmas on floors of scaled naturals. -/

theorem nfloor_mul_div (n a b : ℕ) :
    ⌊(n : ℚ) * ((a : ℚ) / (b : ℚ))⌋₊ = n * a / b := by
  rw [show (n : ℚ) * ((a : ℚ) / (b : ℚ))
      = ((n * a : ℕ) : ℚ) / ((b : ℕ) : ℚ) by push_cast; ring]
  exact Nat.floor_div_eq_div _ _

theorem floor_tenth (n : ℕ) : ⌊(n : ℚ) * (1 / 10)⌋₊ = n / 10 := by
  rw [show ((1 : ℚ) / 10) = ((1 : ℕ) : ℚ) / ((10 : ℕ) : ℚ) by norm_num,
    nfloor_mul_div, Nat.mul_one]

theorem floor_quarter (n : ℕ) : ⌊(n : ℚ) * (25 / 100)⌋₊ = n * 25 / 100 := by
  rw [show ((25 : ℚ) / 100) = ((25 : ℕ) : ℚ) / ((100 : ℕ) : ℚ) by norm_num,
    nfloor_mul_div]

theorem floor_three_quarters (n : ℕ) :
    ⌊(n : ℚ) * (75 / 100)⌋₊ = n * 75 / 100 := by
  rw [show ((75 : ℚ) / 100) = ((75 : ℕ) : ℚ) / ((100 : ℕ) : ℚ) by norm_num,
    nfloor_mul_div]

theorem floor_nine_tenths (n : ℕ) : ⌊(n : ℚ) * (9 / 10)⌋₊ = n * 9 / 10 := by
  rw [show ((9 : ℚ) / 10) = ((9 : ℕ) : ℚ) / ((10 : ℕ) : ℚ) by norm_num,
    nfloor_mul_div]

/-! Helper lemmas on filterMap-built series. -/

theorem map_filterMap_sublist {α β : Type _} (f : α → Option β) (g : β → α)
    (hfg : ∀ a b, f a = some b → g b = a) :
    ∀ l : List α, ((l.filterMap f).map g).Sublist l := by
  intro l
  induction l with
  | nil => simp
  | cons a t ih =>
    cases hfa : f a with
    | none =>
      rw [List.filterMap_cons_none hfa]
      exact ih.cons a
    | some b =>
      rw [List.filterMap_cons_some hfa, List.map_cons, hfg a b hfa]
      exact ih.cons₂ a

theorem avgSeries_mem (pool : String → List Temp × List Temp) {key : String}
    (hmem : key ∈ base_dates) (h1 : (pool key).1 ≠ []) (h2 : (pool key).2 ≠ []) :
    (key, round1 (mean (pool key).1), round1 (mean (pool key).2))
      ∈ avgSeries pool := by
  unfold avgSeries
  refine List.mem_filterMap.mpr ⟨key, hmem, ?_⟩
  simp [h1, h2]

theorem avgSeries_fst (pool : String → List Temp × List Temp) :
    ∀ e ∈ avgSeries pool,
      e.1 ∈ base_dates ∧ (pool e.1).1 ≠ [] ∧ (pool e.1).2 ≠ []
      ∧ e = (e.1, round1 (mean (pool e.1).1), round1 (mean (pool e.1).2)) := by
  intro e he
  unfold avgSeries at he
  obtain ⟨md, hmd, hf⟩ := List.mem_filterMap.mp he
  dsimp only at hf
  by_cases hc : (pool md).1 ≠ [] ∧ (pool md).2 ≠ []
  · rw [if_pos hc] at hf
    obtain rfl := Option.some.inj hf
    exact ⟨hmd, hc.1, hc.2, rfl⟩
  · rw [if_neg hc] at hf
    cases hf

theorem avgSeries_not_mem (pool : String → List Temp × List Temp) {key : String}
    (h : (pool key).1 = [] ∨ (pool key).2 = []) :
    ∀ e ∈ avgSeries pool, e.1 ≠ key := by
  intro e he heq
  obtain ⟨hmd, h1, h2, _⟩ := avgSeries_fst pool e he
  rw [heq] at h1 h2
  rcases h with h | h
  · exact h1 h
  · exact h2 h

theorem avgSeries_sublist (pool : String → List Temp × List Temp) :
    ((avgSeries pool).map Prod.fst).Sublist base_dates := by
  unfold avgSeries
  apply map_filterMap_sublist
  intro a b hab
  dsimp only at hab
  by_cases hc : (pool a).1 ≠ [] ∧ (pool a).2 ≠ []
  · rw [if_pos hc] at hab
    obtain rfl := Option.some.inj hab
    rfl
  · rw [if_neg hc] at hab
    cases hab

theorem envEntry_none_of_short {md : String} {highs0 lows0 : List Temp}
    (h : (sortT highs0).length < 5 ∨ (sortT lows0).length < 5) :
    envEntry md highs0 lows0 = none := by
  simp only [envEntry]
  rw [if_pos h]

theorem envEntry_date {md : String} {highs0 lows0 : List Temp} {e : EnvEntry}
    (h : envEntry md highs0 lows0 = some e) : e.date = md := by
  simp only [envEntry] at h
  by_cases hc : (sortT highs0).length < 5 ∨ (sortT lows0).length < 5
  · rw [if_pos hc] at h
    cases h
  · rw [if_neg hc] at h
    obtain rfl := Option.some.inj h
    rfl

theorem envelope_sublist (historical : Historical) :
    ((historical_envelope historical).map EnvEntry.date).Sublist base_dates := by
  unfold historical_envelope
  apply map_filterMap_sublist
  intro a b hab
  exact envEntry_date hab

/-! Helper lemmas on option counting and the pooled-length invariant. -/

theorem countP_option (l : List (Option ℚ)) (p : ℚ → Bool) :
    (l.countP fun o =>
      match o with
      | some v => p v
      | none => false)
      = ((l.filterMap id).filter p).length := by
  induction l with
  | nil => rfl
  | cons a t ih =>
    cases a with
    | none => simpa [List.countP_cons] using ih
    | some v =>
      cases hpv : p v <;>
        simp [List.countP_cons, List.filter_cons, hpv, ih]

theorem filterMap_high_low_length
    (days : List (String × Option Temp × Option Temp)) (key : String) :
    (days.filterMap fun d =>
      match d.2.1, d.2.2 with
      | some h, some _ => if md_key d.1 = key then some h else none
      | _, _ => none).length
    = (days.filterMap fun d =>
      match d.2.1, d.2.2 with
      | some _, some l => if md_key d.1 = key then some l else none
      | _, _ => none).length := by
  induction days with
  | nil => rfl
  | cons d t ih =>
    obtain ⟨ds, ho, lo⟩ := d
    cases ho <;> cases lo <;>
      simp only [List.filterMap_cons, ih]
    by_cases hk : md_key ds = key <;>
      simp [hk, ih]

theorem pooledHighs_length_eq (years : List YearData) (key : String) :
    (pooledHighs years key).length = (pooledLows years key).length := by
  induction years with
  | nil => rfl
  | cons y t ih =>
    show (List.flatMap _ _).length = (List.flatMap _ _).length
    rw [List.flatMap_cons, List.flatMap_cons, List.length_append,
      List.length_append]
    rw [filterMap_high_low_length y.days key]
    exact congrArg _ ih

/-! Helper lemmas on the monthly records fold. -/

theorem recUpdate_rh (st : RecState) (yr : String) (h l : Option Temp) :
    (recUpdate st yr h l).record_high
      = match h with
        | some hv => if st.record_high < hv then hv else st.record_high
        | none => st.record_high := by
  unfold recUpdate
  cases h <;> cases l <;> dsimp only <;> split_ifs <;>
    simp_all [gt_iff_lt]

theorem recUpdate_rhy (st : RecState) (yr : String) (h l : Option Temp) :
    (recUpdate st yr h l).record_high_year
      = match h with
        | some hv => if st.record_high < hv then yr else st.record_high_year
        | none => st.record_high_year := by
  unfold recUpdate
  cases h <;> cases l <;> dsimp only <;> split_ifs <;>
    simp_all [gt_iff_lt]

theorem recUpdate_rl (st : RecState) (yr : String) (h l : Option Temp) :
    (recUpdate st yr h l).record_low
      = match l with
        | some lv => if lv < st.record_low then lv else st.record_low
        | none => st.record_low := by
  unfold recUpdate
  cases h <;> cases l <;> dsimp only <;> split_ifs <;>
    simp_all [gt_iff_lt]

theorem recUpdate_rly (st : RecState) (yr : String) (h l : Option Temp) :
    (recUpdate st yr h l).record_low_year
      = match l with
        | some lv => if lv < st.record_low then yr else st.record_low_year
        | none => st.record_low_year := by
  unfold recUpdate
  cases h <;> cases l <;> dsimp only <;> split_ifs <;>
    simp_all [gt_iff_lt]

theorem recFold_cons (e : String × (String × Option Temp × Option Temp))
    (t : List (String × (String × Option Temp × Option Temp)))
    (st : Nat → RecState) :
    recFold (e :: t) st = recFold t (recStep st e.1 e.2) := rfl

theorem recStep_eq_of_month (st : Nat → RecState) (yr : String)
    (d : String × Option Temp × Option Temp) {m : Nat}
    (hm : month_num d.1 = m) :
    (recStep st yr d) m = recUpdate (st m) yr d.2.1 d.2.2 := by
  unfold recStep
  rw [if_pos hm.symm]

theorem recStep_eq_of_ne (st : Nat → RecState) (yr : String)
    (d : String × Option Temp × Option Temp) {m : Nat}
    (hm : ¬ month_num d.1 = m) :
    (recStep st yr d) m = st m := by
  unfold recStep
  rw [if_neg fun hh => hm hh.symm]

theorem recFold_high (L : List (String × (String × Option Temp × Option Temp))) :
    ∀ (st : Nat → RecState) (m : Nat),
      (((recFold L st) m).record_high, ((recFold L st) m).record_high_year)
        = highRun (hiEvents L m) (st m).record_high (st m).record_high_year := by
  induction L with
  | nil => intro st m; rfl
  | cons e t ih =>
    intro st m
    obtain ⟨yr, ds, ho, lo⟩ := e
    rw [recFold_cons]
    by_cases hm : month_num ds = m
    · cases ho with
      | some hv =>
        have hev : hiEvents ((yr, ds, some hv, lo) :: t) m
            = (yr, hv) :: hiEvents t m := by
          simp [hiEvents, List.filterMap_cons, hm]
        rw [hev, ih]
        have hst : (recStep st yr (ds, some hv, lo)) m
            = recUpdate (st m) yr (some hv) lo :=
          recStep_eq_of_month st yr (ds, some hv, lo) hm
        rw [hst, recUpdate_rh, recUpdate_rhy]
        by_cases hc : (st m).record_high < hv <;>
          simp [highRun, hc]
      | none =>
        have hev : hiEvents ((yr, ds, none, lo) :: t) m = hiEvents t m := by
          simp [hiEvents, List.filterMap_cons]
        rw [hev, ih]
        have hst : (recStep st yr (ds, none, lo)) m
            = recUpdate (st m) yr none lo :=
          recStep_eq_of_month st yr (ds, none, lo) hm
        rw [hst, recUpdate_rh, recUpdate_rhy]
    · have hev : hiEvents ((yr, ds, ho, lo) :: t) m = hiEvents t m := by
        cases ho <;> simp [hiEvents, List.filterMap_cons, hm]
      rw [hev, ih]
      rw [recStep_eq_of_ne st yr (ds, ho, lo) hm]

theorem recFold_low (L : List (String × (String × Option Temp × Option Temp))) :
    ∀ (st : Nat → RecState) (m : Nat),
      (((recFold L st) m).record_low, ((recFold L st) m).record_low_year)
        = lowRun (loEvents L m) (st m).record_low (st m).record_low_year := by
  induction L with
  | nil => intro st m; rfl
  | cons e t ih =>
    intro st m
    obtain ⟨yr, ds, ho, lo⟩ := e
    rw [recFold_cons]
    by_cases hm : month_num ds = m
    · cases lo with
      | some lv =>
        have hev : loEvents ((yr, ds, ho, some lv) :: t) m
            = (yr, lv) :: loEvents t m := by
          simp [loEvents, List.filterMap_cons, hm]
        rw [hev, ih]
        have hst : (recStep st yr (ds, ho, some lv)) m
            = recUpdate (st m) yr ho (some lv) :=
          recStep_eq_of_month st yr (ds, ho, some lv) hm
        rw [hst, recUpdate_rl, recUpdate_rly]
        by_cases hc : lv < (st m).record_low <;>
          simp [lowRun, hc]
      | none =>
        have hev : loEvents ((yr, ds, ho, none) :: t) m = loEvents t m := by
          simp [loEvents, List.filterMap_cons]
        rw [hev, ih]
        have hst : (recStep st yr (ds, ho, none)) m
            = recUpdate (st m) yr ho none :=
          recStep_eq_of_month st yr (ds, ho, none) hm
        rw [hst, recUpdate_rl, recUpdate_rly]
    · have hev : loEvents ((yr, ds, ho, lo) :: t) m = loEvents t m := by
        cases lo <;> simp [loEvents, List.filterMap_cons, hm]
      rw [hev, ih]
      rw [recStep_eq_of_ne st yr (ds, ho, lo) hm]

theorem monthly_records_eq (historical : Historical) :
    monthly_records historical = recFold (allDays historical) fun _ => initRec := by
  suffices h : ∀ (hist : Historical) (st : Nat → RecState),
      hist.foldl (fun st p => p.2.days.foldl (fun st d => recStep st p.1 d) st) st
        = recFold (allDays hist) st from h historical _
  intro hist
  induction hist with
  | nil => intro st; rfl
  | cons p t ih =>
    intro st
    rw [show allDays (p :: t)
        = (p.2.days.map fun d => (p.1, d)) ++ allDays t from rfl]
    show List.foldl _ _ t = _
    rw [ih]
    unfold recFold
    rw [List.foldl_append, List.foldl_map]

theorem highRun_of_le : ∀ (l : List (String × ℚ)) (c : ℚ) (y : String),
    (∀ e ∈ l, e.2 ≤ c) → highRun l c y = (c, y) := by
  intro l
  induction l with
  | nil => intros; rfl
  | cons e t ih =>
    intro c y h
    have hc : ¬ c < e.2 := not_lt.mpr (h e (List.mem_cons_self e t))
    rw [show highRun (e :: t) c y = highRun t c y by simp [highRun, hc]]
    exact ih c y fun x hx => h x (List.mem_cons_of_mem e hx)

theorem lowRun_of_le : ∀ (l : List (String × ℚ)) (c : ℚ) (y : String),
    (∀ e ∈ l, c ≤ e.2) → lowRun l c y = (c, y) := by
  intro l
  induction l with
  | nil => intros; rfl
  | cons e t ih =>
    intro c y h
    have hc : ¬ e.2 < c := not_lt.mpr (h e (List.mem_cons_self e t))
    rw [show lowRun (e :: t) c y = lowRun t c y by simp [lowRun, hc]]
    exact ih c y fun x hx => h x (List.mem_cons_of_mem e hx)

theorem highRun_fst : ∀ (l : List (String × ℚ)) (c : ℚ) (y : String),
    (highRun l c y).1 = (l.map Prod.snd).foldl max c := by
  intro l
  induction l with
  | nil => intros; rfl
  | cons e t ih =>
    intro c y
    rw [List.map_cons, List.foldl_cons]
    by_cases hc : c < e.2
    · rw [show highRun (e :: t) c y = highRun t e.2 e.1 by simp [highRun, hc]]
      rw [ih, max_eq_right (le_of_lt hc)]
    · rw [show highRun (e :: t) c y = highRun t c y by simp [highRun, hc]]
      rw [ih, max_eq_left (not_lt.mp hc)]

theorem lowRun_fst : ∀ (l : List (String × ℚ)) (c : ℚ) (y : String),
    (lowRun l c y).1 = (l.map Prod.snd).foldl min c := by
  intro l
  induction l with
  | nil => intros; rfl
  | cons e t ih =>
    intro c y
    rw [List.map_cons, List.foldl_cons]
    by_cases hc : e.2 < c
    · rw [show lowRun (e :: t) c y = lowRun t e.2 e.1 by simp [lowRun, hc]]
      rw [ih, min_eq_right (le_of_lt hc)]
    · rw [show lowRun (e :: t) c y = lowRun t c y by simp [lowRun, hc]]
      rw [ih, min_eq_left (not_lt.mp hc)]

theorem highRun_snd : ∀ (l : List (String × ℚ)) (c : ℚ) (y : String),
    (∃ e ∈ l, c < e.2) →
    (highRun l c y).2
      = ((l.find? fun e => e.2 == (l.map Prod.snd).foldl max c).map
          Prod.fst).getD y := by
  intro l
  induction l with
  | nil =>
    rintro c y ⟨e, he, _⟩
    cases he
  | cons e t ih =>
    rintro c y hex
    by_cases hc : c < e.2
    · have hrun : highRun (e :: t) c y = highRun t e.2 e.1 := by
        simp [highRun, hc]
      have hM : (List.map Prod.snd (e :: t)).foldl max c
          = (t.map Prod.snd).foldl max e.2 := by
        rw [List.map_cons, List.foldl_cons, max_eq_right (le_of_lt hc)]
      by_cases ht : ∃ x ∈ t, e.2 < x.2
      · obtain ⟨x, hx, hlt⟩ := ht
        have hlemax : x.2 ≤ (t.map Prod.snd).foldl max e.2 :=
          mem_le_foldl_max _ _ _ (List.mem_map_of_mem Prod.snd hx)
        have hgt : e.2 < (t.map Prod.snd).foldl max e.2 :=
          lt_of_lt_of_le hlt hlemax
        have heM : ¬ (e.2 == (t.map Prod.snd).foldl max e.2) = true := by
          intro hbeq
          rw [beq_iff_eq] at hbeq
          linarith
        have hfalse : (e.2 == (t.map Prod.snd).foldl max e.2) = false := by
          simpa using heM
        rw [hrun, ih e.2 e.1 ⟨x, hx, hlt⟩, hM, List.find?_cons, hfalse]
        have hMmem : (t.map Prod.snd).foldl max e.2 ∈ t.map Prod.snd := by
          rcases foldl_max_mem (t.map Prod.snd) e.2 with hh | hh
          · exfalso; rw [hh] at hgt; exact lt_irrefl _ hgt
          · exact hh
        obtain ⟨a, ha, haM⟩ := List.mem_map.mp hMmem
        have hsome : t.find? (fun p => p.2 == (t.map Prod.snd).foldl max e.2) ≠
            none := by
          intro hnone
          rw [List.find?_eq_none] at hnone
          exact hnone a ha (by rw [beq_iff_eq]; exact haM)
        obtain ⟨w, hw⟩ := Option.ne_none_iff_exists'.mp hsome
        rw [hw]
        rfl
      · push_neg at ht
        have hstop : highRun t e.2 e.1 = (e.2, e.1) := highRun_of_le t e.2 e.1 ht
        have hMeq : (t.map Prod.snd).foldl max e.2 = e.2 := by
          apply foldl_max_of_le
          intro x hx
          obtain ⟨a, ha, rfl⟩ := List.mem_map.mp hx
          exact ht a ha
        have htrue : (e.2 == e.2) = true := by simp
        rw [hrun, hstop, hM, hMeq, List.find?_cons, htrue]
        rfl
    · have hrun : highRun (e :: t) c y = highRun t c y := by
        simp [highRun, hc]
      have hM : (List.map Prod.snd (e :: t)).foldl max c
          = (t.map Prod.snd).foldl max c := by
        rw [List.map_cons, List.foldl_cons, max_eq_left (not_lt.mp hc)]
      have ht : ∃ x ∈ t, c < x.2 := by
        obtain ⟨x, hx, hlt⟩ := hex
        rcases List.mem_cons.mp hx with rfl | hmem
        · exact absurd hlt hc
        · exact ⟨x, hmem, hlt⟩
      have heM : ¬ (e.2 == (t.map Prod.snd).foldl max c) = true := by
        obtain ⟨x, hx, hlt⟩ := ht
        have h1 : x.2 ≤ (t.map Prod.snd).foldl max c :=
          mem_le_foldl_max _ _ _ (List.mem_map_of_mem Prod.snd hx)
        have h2 : e.2 ≤ c := not_lt.mp hc
        intro hbeq
        rw [beq_iff_eq] at hbeq
        linarith
      have hfalse : (e.2 == (t.map Prod.snd).foldl max c) = false := by
        simpa using heM
      rw [hrun, ih c y ht, hM, List.find?_cons, hfalse]

theorem lowRun_snd : ∀ (l : List (String × ℚ)) (c : ℚ) (y : String),
    (∃ e ∈ l, e.2 < c) →
    (lowRun l c y).2
      = ((l.find? fun e => e.2 == (l.map Prod.snd).foldl min c).map
          Prod.fst).getD y := by
  intro l
  induction l with
  | nil =>
    rintro c y ⟨e, he, _⟩
    cases he
  | cons e t ih =>
    rintro c y hex
    by_cases hc : e.2 < c
    · have hrun : lowRun (e :: t) c y = lowRun t e.2 e.1 := by
        simp [lowRun, hc]
      have hM : (List.map Prod.snd (e :: t)).foldl min c
          = (t.map Prod.snd).foldl min e.2 := by
        rw [List.map_cons, List.foldl_cons, min_eq_right (le_of_lt hc)]
      by_cases ht : ∃ x ∈ t, x.2 < e.2
      · obtain ⟨x, hx, hlt⟩ := ht
        have hlemax : (t.map Prod.snd).foldl min e.2 ≤ x.2 :=
          foldl_min_le_mem _ _ _ (List.mem_map_of_mem Prod.snd hx)
        have hgt : (t.map Prod.snd).foldl min e.2 < e.2 :=
          lt_of_le_of_lt hlemax hlt
        have heM : ¬ (e.2 == (t.map Prod.snd).foldl min e.2) = true := by
          intro hbeq
          rw [beq_iff_eq] at hbeq
          linarith
        have hfalse : (e.2 == (t.map Prod.snd).foldl min e.2) = false := by
          simpa using heM
        rw [hrun, ih e.2 e.1 ⟨x, hx, hlt⟩, hM, List.find?_cons, hfalse]
        have hMmem : (t.map Prod.snd).foldl min e.2 ∈ t.map Prod.snd := by
          rcases foldl_min_mem (t.map Prod.snd) e.2 with hh | hh
          · exfalso; rw [hh] at hgt; exact lt_irrefl _ hgt
          · exact hh
        obtain ⟨a, ha, haM⟩ := List.mem_map.mp hMmem
        have hsome : t.find? (fun p => p.2 == (t.map Prod.snd).foldl min e.2) ≠
            none := by
          intro hnone
          rw [List.find?_eq_none] at hnone
          exact hnone a ha (by rw [beq_iff_eq]; exact haM)
        obtain ⟨w, hw⟩ := Option.ne_none_iff_exists'.mp hsome
        rw [hw]
        rfl
      · push_neg at ht
        have hstop : lowRun t e.2 e.1 = (e.2, e.1) := lowRun_of_le t e.2 e.1 ht
        have hMeq : (t.map Prod.snd).foldl min e.2 = e.2 := by
          apply foldl_min_of_le
          intro x hx
          obtain ⟨a, ha, rfl⟩ := List.mem_map.mp hx
          exact ht a ha
        have htrue : (e.2 == e.2) = true := by simp
        rw [hrun, hstop, hM, hMeq, List.find?_cons, htrue]
        rfl
    · have hrun : lowRun (e :: t) c y = lowRun t c y := by
        simp [lowRun, hc]
      have hM : (List.map Prod.snd (e :: t)).foldl min c
          = (t.map Prod.snd).foldl min c := by
        rw [List.map_cons, List.foldl_cons, min_eq_left (not_lt.mp hc)]
      have ht : ∃ x ∈ t, x.2 < c := by
        obtain ⟨x, hx, hlt⟩ := hex
        rcases List.mem_cons.mp hx with rfl | hmem
        · exact absurd hlt hc
        · exact ⟨x, hmem, hlt⟩
      have heM : ¬ (e.2 == (t.map Prod.snd).foldl min c) = true := by
        obtain ⟨x, hx, hlt⟩ := ht
        have h1 : (t.map Prod.snd).foldl min c ≤ x.2 :=
          foldl_min_le_mem _ _ _ (List.mem_map_of_mem Prod.snd hx)
        have h2 : c ≤ e.2 := not_lt.mp hc
        intro hbeq
        rw [beq_iff_eq] at hbeq
        linarith
      have hfalse : (e.2 == (t.map Prod.snd).foldl min c) = false := by
        simpa using heM
      rw [hrun, ih c y ht, hM, List.find?_cons, hfalse]

theorem records_high_spec (historical : Historical) (m : Nat)
    (hne : monthHighEvents historical m ≠ [])
    (hall : ∀ p ∈ monthHighEvents historical m, (-999 : ℚ) < p.2) :
    (monthly_records historical m).record_high
        = listMax ((monthHighEvents historical m).map Prod.snd)
    ∧ (monthly_records historical m).record_high_year
        = (((monthHighEvents historical m).find? fun p =>
            p.2 == listMax ((monthHighEvents historical m).map Prod.snd)).map
              Prod.fst).getD "" := by
  have hrf := recFold_high (allDays historical) (fun _ => initRec) m
  rw [← monthly_records_eq historical] at hrf
  change ((monthly_records historical m).record_high,
      (monthly_records historical m).record_high_year)
    = highRun (monthHighEvents historical m) (-999) "" at hrf
  obtain ⟨x, hx⟩ := List.exists_mem_of_ne_nil _ hne
  have hexx : ∃ p ∈ monthHighEvents historical m, (-999 : ℚ) < p.2 :=
    ⟨x, hx, hall x hx⟩
  have hmapne : (monthHighEvents historical m).map Prod.snd ≠ [] := by
    intro h0
    exact hne (List.map_eq_nil_iff.mp h0)
  have hfold : ((monthHighEvents historical m).map Prod.snd).foldl max (-999)
      = listMax ((monthHighEvents historical m).map Prod.snd) := by
    apply foldl_max_eq_listMax hmapne
    intro v hv
    obtain ⟨p, hp, rfl⟩ := List.mem_map.mp hv
    exact le_of_lt (hall p hp)
  rw [Prod.ext_iff] at hrf
  have h1 : (monthly_records historical m).record_high
      = (highRun (monthHighEvents historical m) (-999) "").1 := hrf.1
  have h2 : (monthly_records historical m).record_high_year
      = (highRun (monthHighEvents historical m) (-999) "").2 := hrf.2
  constructor
  · rw [h1, highRun_fst, hfold]
  · rw [h2, highRun_snd _ _ _ hexx, hfold]

theorem records_low_spec (historical : Historical) (m : Nat)
    (hne : monthLowEvents historical m ≠ [])
    (hall : ∀ p ∈ monthLowEvents historical m, p.2 < (999 : ℚ)) :
    (monthly_records historical m).record_low
        = listMin ((monthLowEvents historical m).map Prod.snd)
    ∧ (monthly_records historical m).record_low_year
        = (((monthLowEvents historical m).find? fun p =>
            p.2 == listMin ((monthLowEvents historical m).map Prod.snd)).map
              Prod.fst).getD "" := by
  have hrf := recFold_low (allDays historical) (fun _ => initRec) m
  rw [← monthly_records_eq historical] at hrf
  change ((monthly_records historical m).record_low,
      (monthly_records historical m).record_low_year)
    = lowRun (monthLowEvents historical m) 999 "" at hrf
  obtain ⟨x, hx⟩ := List.exists_mem_of_ne_nil _ hne
  have hexx : ∃ p ∈ monthLowEvents historical m, p.2 < (999 : ℚ) :=
    ⟨x, hx, hall x hx⟩
  have hmapne : (monthLowEvents historical m).map Prod.snd ≠ [] := by
    intro h0
    exact hne (List.map_eq_nil_iff.mp h0)
  have hfold : ((monthLowEvents historical m).map Prod.snd).foldl min 999
      = listMin ((monthLowEvents historical m).map Prod.snd) := by
    apply foldl_min_eq_listMin hmapne
    intro v hv
    obtain ⟨p, hp, rfl⟩ := List.mem_map.mp hv
    exact le_of_lt (hall p hp)
  rw [Prod.ext_iff] at hrf
  have h1 : (monthly_records historical m).record_low
      = (lowRun (monthLowEvents historical m) 999 "").1 := hrf.1
  have h2 : (monthly_records historical m).record_low_year
      = (lowRun (monthLowEvents historical m) 999 "").2 := hrf.2
  constructor
  · rw [h1, lowRun_fst, hfold]
  · rw [h2, lowRun_snd _ _ _ hexx, hfold]

theorem records_high_empty (historical : Historical) (m : Nat)
    (hev : monthHighEvents historical m = []) :
    (monthly_records historical m).record_high = -999
    ∧ (monthly_records historical m).record_high_year = "" := by
  have hrf := recFold_high (allDays historical) (fun _ => initRec) m
  rw [← monthly_records_eq historical] at hrf
  change ((monthly_records historical m).record_high,
      (monthly_records historical m).record_high_year)
    = highRun (monthHighEvents historical m) (-999) "" at hrf
  rw [hev] at hrf
  rw [Prod.ext_iff] at hrf
  exact hrf

theorem records_low_empty (historical : Historical) (m : Nat)
    (hev : monthLowEvents historical m = []) :
    (monthly_records historical m).record_low = 999
    ∧ (monthly_records historical m).record_low_year = "" := by
  have hrf := recFold_low (allDays historical) (fun _ => initRec) m
  rw [← monthly_records_eq historical] at hrf
  change ((monthly_records historical m).record_low,
      (monthly_records historical m).record_low_year)
    = lowRun (monthLowEvents historical m) 999 "" at hrf
  rw [hev] at hrf
  rw [Prod.ext_iff] at hrf
  exact hrf

theorem monthlyHistHighs_nil (historical : Historical) (m : Nat)
    (hev : monthHighEvents historical m = []) :
    monthlyHistHighs historical m = [] := by
  rw [List.eq_nil_iff_forall_not_mem] at hev ⊢
  intro x hx
  unfold monthlyHistHighs at hx
  obtain ⟨data, hdata, hx2⟩ := List.mem_flatMap.mp hx
  obtain ⟨d, hd, hfd⟩ := List.mem_filterMap.mp hx2
  obtain ⟨ds, ho, lo⟩ := d
  cases ho with
  | none => simp at hfd
  | some hv =>
    cases lo with
    | none => simp at hfd
    | some lv =>
      dsimp only at hfd
      by_cases hm : month_num ds = m
      · rw [if_pos hm] at hfd
        obtain rfl := Option.some.inj hfd
        obtain ⟨p, hp, rfl⟩ := List.mem_map.mp hdata
        apply hev (p.1, hv)
        unfold monthHighEvents hiEvents
        apply List.mem_filterMap.mpr
        refine ⟨(p.1, (ds, some hv, some lv)), ?_, ?_⟩
        · unfold allDays
          exact List.mem_flatMap.mpr
            ⟨p, hp, List.mem_map.mpr ⟨(ds, some hv, some lv), hd, rfl⟩⟩
        · simp [hm]
      · rw [if_neg hm] at hfd
        cases hfd

theorem monthlyHistLows_nil (historical : Historical) (m : Nat)
    (hev : monthLowEvents historical m = []) :
    monthlyHistLows historical m = [] := by
  rw [List.eq_nil_iff_forall_not_mem] at hev ⊢
  intro x hx
  unfold monthlyHistLows at hx
  obtain ⟨data, hdata, hx2⟩ := List.mem_flatMap.mp hx
  obtain ⟨d, hd, hfd⟩ := List.mem_filterMap.mp hx2
  obtain ⟨ds, ho, lo⟩ := d
  cases ho with
  | none => simp at hfd
  | some hv =>
    cases lo with
    | none => simp at hfd
    | some lv =>
      dsimp only at hfd
      by_cases hm : month_num ds = m
      · rw [if_pos hm] at hfd
        obtain rfl := Option.some.inj hfd
        obtain ⟨p, hp, rfl⟩ := List.mem_map.mp hdata
        apply hev (p.1, lv)
        unfold monthLowEvents loEvents
        apply List.mem_filterMap.mpr
        refine ⟨(p.1, (ds, some hv, some lv)), ?_, ?_⟩
        · unfold allDays
          exact List.mem_flatMap.mpr
            ⟨p, hp, List.mem_map.mpr ⟨(ds, some hv, some lv), hd, rfl⟩⟩
        · simp [hm]
      · rw [if_neg hm] at hfd
        cases hfd

theorem envEntry_W10 : envEntry "01-01" W10highs W10lows = some W10env := by
  have hsh : sortT W10highs = W10highs := by decide
  have hsl : sortT W10lows = W10lows := by decide
  simp only [envEntry, hsh, hsl]
  have hlh : W10highs.length = 10 := by decide
  have hll : W10lows.length = 10 := by decide
  rw [hlh, hll]
  rw [if_neg (by omega : ¬((10 : ℕ) < 5 ∨ (10 : ℕ) < 5))]
  rw [floor_tenth, floor_quarter, floor_three_quarters, floor_nine_tenths]
  rfl

theorem W10env_mem : W10env ∈ historical_envelope W10 := by
  unfold historical_envelope
  refine List.mem_filterMap.mpr ⟨"01-01", by decide, ?_⟩
  have h1 : allDailyHighs W10 "01-01" = W10highs := by decide
  have h2 : allDailyLows W10 "01-01" = W10lows := by decide
  rw [h1, h2]
  exact envEntry_W10

/-! The claims. -/

/-- C7: `base_dates` is a pure constant with exactly 366 entries: the 365
month-day keys of the non-leap reference year in calendar order, with
"02-29" inserted immediately after "02-28" (which sits at index 58). -/
theorem claim_C7 :
    base_dates.length = 366
    ∧ nonLeapDates.length = 365
    ∧ base_dates = nonLeapDates.take 59 ++ "02-29" :: nonLeapDates.drop 59
    ∧ nonLeapDates.getD 58 "" = "02-28"
    ∧ base_dates.getD 58 "" = "02-28"
    ∧ base_dates.getD 59 "" = "02-29" :=
  ⟨by decide, by decide, by decide, by decide, by decide, by decide⟩

/-- C9: the aggregation pipeline is a deterministic function of the provider
responses; two runs over the same data agree on every output field except
the generation timestamp. -/
theorem claim_C9 (historical : Historical) (current_data : YearData)
    (currentYear : Nat) (t1 t2 : String) :
    stripGenerated (buildOutput historical current_data currentYear t1)
      = stripGenerated (buildOutput historical current_data currentYear t2) := rfl

/-- C10: for every pooling (all-historical and trailing alike) the high and
low multisets of a key have equal length, so the envelope's fewer-than-5 test
and the normals' both-non-empty test each reduce to a single count. -/
theorem claim_C10 (years : List YearData) (historical : Historical)
    (key : String) :
    (pooledHighs years key).length = (pooledLows years key).length
    ∧ (allDailyHighs historical key).length
        = (allDailyLows historical key).length
    ∧ (pooledHighs (trailingData historical) key).length
        = (pooledLows (trailingData historical) key).length
    ∧ ((pooledHighs years key).length < 5 ∨ (pooledLows years key).length < 5
        ↔ (pooledHighs years key).length < 5)
    ∧ (pooledHighs years key ≠ [] ∧ pooledLows years key ≠ []
        ↔ pooledHighs years key ≠ []) := by
  have h := pooledHighs_length_eq years key
  refine ⟨h, pooledHighs_length_eq _ _, pooledHighs_length_eq _ _, ?_, ?_⟩
  · constructor
    · rintro (h5 | h5)
      · exact h5
      · omega
    · intro h5
      exact Or.inl h5
  · constructor
    · rintro ⟨h1, _⟩
      exact h1
    · intro h1
      refine ⟨h1, ?_⟩
      intro h0
      apply h1
      apply List.eq_nil_of_length_eq_zero
      rw [h, h0]
      rfl

/-- C8: every derived series is a filtered projection of the calendar axis:
its keys form a sublist of `base_dates` (hence appear in axis order and are
all members), and it has at most 366 entries. -/
theorem claim_C8 (historical : Historical) :
    ((normals historical).map Prod.fst).Sublist base_dates
    ∧ (normals historical).length ≤ 366
    ∧ (∀ e ∈ normals historical, e.1 ∈ base_dates)
    ∧ ((trailing_avg historical).map Prod.fst).Sublist base_dates
    ∧ (trailing_avg historical).length ≤ 366
    ∧ (∀ e ∈ trailing_avg historical, e.1 ∈ base_dates)
    ∧ ((historical_envelope historical).map EnvEntry.date).Sublist base_dates
    ∧ (historical_envelope historical).length ≤ 366
    ∧ (∀ e ∈ historical_envelope historical, e.date ∈ base_dates) := by
  have hbase : base_dates.length = 366 := by decide
  have hn : ((normals historical).map Prod.fst).Sublist base_dates :=
    avgSeries_sublist _
  have ht : ((trailing_avg historical).map Prod.fst).Sublist base_dates :=
    avgSeries_sublist _
  have he : ((historical_envelope historical).map EnvEntry.date).Sublist
      base_dates := envelope_sublist historical
  refine ⟨hn, ?_, ?_, ht, ?_, ?_, he, ?_, ?_⟩
  · have := hn.length_le
    rw [List.length_map] at this
    omega
  · intro e hee
    exact hn.subset (List.mem_map_of_mem Prod.fst hee)
  · have := ht.length_le
    rw [List.length_map] at this
    omega
  · intro e hee
    exact ht.subset (List.mem_map_of_mem Prod.fst hee)
  · have := he.length_le
    rw [List.length_map] at this
    omega
  · intro e hee
    exact he.subset (List.mem_map_of_mem EnvEntry.date hee)

/-- C8 witness: the three series of the ten-year sample sit inside the
calendar axis with at most 366 entries each. -/
theorem claim_C8_instance :
    ((normals W10).map Prod.fst).Sublist base_dates
    ∧ (normals W10).length ≤ 366
    ∧ "01-01" ∈ base_dates :=
  ⟨(claim_C8 W10).1, (claim_C8 W10).2.1, by decide⟩

/-- C4: for every axis key, in both the normals and the trailing reduction:
when both pooled multisets are non-empty the series contains the key with the
one-decimal rounded means, and when either is empty no entry carries the
key. -/
theorem claim_C4 (historical : Historical) (key : String)
    (hkey : key ∈ base_dates) :
    ((allDailyHighs historical key ≠ [] ∧ allDailyLows historical key ≠ []) →
        (key, round1 (mean (allDailyHighs historical key)),
          round1 (mean (allDailyLows historical key))) ∈ normals historical)
    ∧ ((allDailyHighs historical key = [] ∨ allDailyLows historical key = []) →
        ∀ e ∈ normals historical, e.1 ≠ key)
    ∧ ((pooledHighs (trailingData historical) key ≠ []
        ∧ pooledLows (trailingData historical) key ≠ []) →
        (key, round1 (mean (pooledHighs (trailingData historical) key)),
          round1 (mean (pooledLows (trailingData historical) key)))
          ∈ trailing_avg historical)
    ∧ ((pooledHighs (trailingData historical) key = []
        ∨ pooledLows (trailingData historical) key = []) →
        ∀ e ∈ trailing_avg historical, e.1 ≠ key) := by
  refine ⟨?_, ?_, ?_, ?_⟩
  · rintro ⟨h1, h2⟩
    exact avgSeries_mem _ hkey h1 h2
  · intro h
    exact avgSeries_not_mem _ h
  · rintro ⟨h1, h2⟩
    exact avgSeries_mem _ hkey h1 h2
  · intro h
    exact avgSeries_not_mem _ h

/-- C4 witness: the ten-year sample pools highs 10..100 and lows 0..18 for
"01-01", whose rounded means (55 and 9) are emitted by both reductions. -/
theorem claim_C4_instance :
    ("01-01", round1 (mean (allDailyHighs W10 "01-01")),
      round1 (mean (allDailyLows W10 "01-01"))) ∈ normals W10
    ∧ ("01-01", round1 (mean (pooledHighs (trailingData W10) "01-01")),
        round1 (mean (pooledLows (trailingData W10) "01-01")))
        ∈ trailing_avg W10
    ∧ allDailyHighs W10 "01-01" = W10highs
    ∧ mean W10highs = 55 ∧ mean W10lows = 9 := by
  have h := claim_C4 W10 "01-01" (by decide)
  refine ⟨h.1 ⟨by decide, by decide⟩, h.2.2.1 ⟨by decide, by decide⟩,
    by decide, ?_, ?_⟩
  · rw [show mean W10highs
        = (550 : ℚ) / ((10 : ℕ) : ℚ) by rw [mean]; norm_num [W10highs]]
    norm_num
  · rw [show mean W10lows
        = (90 : ℚ) / ((10 : ℕ) : ℚ) by rw [mean]; norm_num [W10lows]]
    norm_num

/-- C6: the summary counts days whose low is present and at most 32, and
days whose high is present and at least 90 (inclusive thresholds, missing
values not counted); on lows [20, 32, 33, None, 31] the freezing count is
exactly 3. -/
theorem claim_C6 :
    (∀ (normalsSeries : List (String × ℚ × ℚ)) (current : YearData),
      (buildSummary normalsSeries current).days_below_freezing
          = ((current.low.filterMap id).filter fun v => decide (v ≤ 32)).length
      ∧ (buildSummary normalsSeries current).days_above_90
          = ((current.high.filterMap id).filter fun v => decide (90 ≤ v)).length)
    ∧ (buildSummary [] C6cur).days_below_freezing = 3
    ∧ (buildSummary [] C6cur).days_above_90 = 2 := by
  refine ⟨fun ns cur => ⟨?_, ?_⟩, ?_, ?_⟩
  · exact countP_option cur.low fun v => decide (v ≤ 32)
  · exact countP_option cur.high fun v => decide (90 ≤ v)
  · decide
  · decide

/-- C1: the envelope is emitted per axis key from the pooled sorted
multisets, and every emitted percentile is the (rounded) element at the
specification's nearest-rank index `clamp(floor(n * p), 0, n - 1)`; for a
sorted sample of length 10 the 90th percentile index is 9, i.e. it
coincides with the record. -/
theorem claim_C1 :
    (∀ historical : Historical,
      historical_envelope historical
        = base_dates.filterMap fun md =>
            envEntry md (allDailyHighs historical md) (allDailyLows historical md))
    ∧ specClamp 10 (9/10) = 9
    ∧ ∀ (md : String) (highs0 lows0 : List Temp) (e : EnvEntry),
        envEntry md highs0 lows0 = some e →
        e.p10_high
            = round1 ((sortT highs0).getD (specClamp (sortT highs0).length (1/10)) 0)
        ∧ e.p25_high
            = round1 ((sortT highs0).getD (specClamp (sortT highs0).length (25/100)) 0)
        ∧ e.p75_high
            = round1 ((sortT highs0).getD (specClamp (sortT highs0).length (75/100)) 0)
        ∧ e.p90_high
            = round1 ((sortT highs0).getD (specClamp (sortT highs0).length (9/10)) 0)
        ∧ e.p10_low
            = round1 ((sortT lows0).getD (specClamp (sortT lows0).length (1/10)) 0)
        ∧ e.p25_low
            = round1 ((sortT lows0).getD (specClamp (sortT lows0).length (25/100)) 0)
        ∧ e.p75_low
            = round1 ((sortT lows0).getD (specClamp (sortT lows0).length (75/100)) 0)
        ∧ e.p90_low
            = round1 ((sortT lows0).getD (specClamp (sortT lows0).length (9/10)) 0)
        ∧ ((sortT highs0).length = 10 → e.p90_high = e.record_high) := by
  refine ⟨fun historical => rfl, ?_, ?_⟩
  · unfold specClamp
    rw [floor_nine_tenths]
    omega
  · intro md highs0 lows0 e he
    simp only [envEntry] at he
    by_cases hc : (sortT highs0).length < 5 ∨ (sortT lows0).length < 5
    · rw [if_pos hc] at he
      cases he
    · rw [if_neg hc] at he
      push_neg at hc
      obtain ⟨h5h, h5l⟩ := hc
      obtain rfl := Option.some.inj he
      have e10h : max 0 ⌊((sortT highs0).length : ℚ) * (1/10)⌋₊
          = specClamp (sortT highs0).length (1/10) := by
        unfold specClamp
        rw [floor_tenth]
        omega
      have e25h : max 0 ⌊((sortT highs0).length : ℚ) * (25/100)⌋₊
          = specClamp (sortT highs0).length (25/100) := by
        unfold specClamp
        rw [floor_quarter]
        omega
      have e75h : min ((sortT highs0).length - 1)
            ⌊((sortT highs0).length : ℚ) * (75/100)⌋₊
          = specClamp (sortT highs0).length (75/100) := by
        unfold specClamp
        rw [floor_three_quarters]
        omega
      have e90h : min ((sortT highs0).length - 1)
            ⌊((sortT highs0).length : ℚ) * (9/10)⌋₊
          = specClamp (sortT highs0).length (9/10) := by
        unfold specClamp
        rw [floor_nine_tenths]
        omega
      have e10l : max 0 ⌊((sortT lows0).length : ℚ) * (1/10)⌋₊
          = specClamp (sortT lows0).length (1/10) := by
        unfold specClamp
        rw [floor_tenth]
        omega
      have e25l : max 0 ⌊((sortT lows0).length : ℚ) * (25/100)⌋₊
          = specClamp (sortT lows0).length (25/100) := by
        unfold specClamp
        rw [floor_quarter]
        omega
      have e75l : min ((sortT lows0).length - 1)
            ⌊((sortT lows0).length : ℚ) * (75/100)⌋₊
          = specClamp (sortT lows0).length (75/100) := by
        unfold specClamp
        rw [floor_three_quarters]
        omega
      have e90l : min ((sortT lows0).length - 1)
            ⌊((sortT lows0).length : ℚ) * (9/10)⌋₊
          = specClamp (sortT lows0).length (9/10) := by
        unfold specClamp
        rw [floor_nine_tenths]
        omega
      refine ⟨?_, ?_, ?_, ?_, ?_, ?_, ?_, ?_, ?_⟩
      · show round1 _ = round1 _
        rw [e10h]
      · show round1 _ = round1 _
        rw [e25h]
      · show round1 _ = round1 _
        rw [e75h]
      · show round1 _ = round1 _
        rw [e90h]
      · show round1 _ = round1 _
        rw [e10l]
      · show round1 _ = round1 _
        rw [e25l]
      · show round1 _ = round1 _
        rw [e75l]
      · show round1 _ = round1 _
        rw [e90l]
      · intro h10
        show round1 ((sortT highs0).getD
            (min ((sortT highs0).length - 1)
              ⌊((sortT highs0).length : ℚ) * (9/10)⌋₊) 0)
          = round1 (listMax (sortT highs0))
        have hne : sortT highs0 ≠ [] := by
          intro h0
          rw [h0] at h10
          cases h10
        have hidx : min ((sortT highs0).length - 1)
            ⌊((sortT highs0).length : ℚ) * (9/10)⌋₊
            = (sortT highs0).length - 1 := by
          rw [floor_nine_tenths, h10]
          omega
        rw [hidx]
        have hmax : (sortT highs0).getD ((sortT highs0).length - 1) 0
            = listMax (sortT highs0) := by
          apply le_antisymm
          · exact le_listMax (getD_mem (by omega))
          · exact sorted_le_getD_last (sortT_sorted highs0) (listMax_mem hne)
        rw [hmax]

/-- C1 witness: on the pools of "01-01" from the ten-year sample (a sorted
sample of length 10) the envelope row is emitted, its 90th percentile sits at
the specification's clamp index, and it equals the record high. -/
theorem claim_C1_instance :
    envEntry "01-01" W10highs W10lows = some W10env
    ∧ W10env.p90_high
        = round1 ((sortT W10highs).getD (specClamp (sortT W10highs).length (9/10)) 0)
    ∧ W10env.p90_high = W10env.record_high := by
  have h := claim_C1.2.2 "01-01" W10highs W10lows W10env envEntry_W10
  have hlen : (sortT W10highs).length = 10 := by decide
  exact ⟨envEntry_W10, h.2.2.2.1, h.2.2.2.2.2.2.2.2 hlen⟩

/-- C2: every emitted envelope row has ordered percentiles bounded by the
records, the record high and low are the rounded maximum of the pooled highs
and minimum of the pooled lows, and a key with fewer than 5 samples in either
pool never appears. -/
theorem claim_C2 (historical : Historical) :
    (∀ e ∈ historical_envelope historical,
      (e.p10_high ≤ e.p25_high ∧ e.p25_high ≤ e.p75_high
        ∧ e.p75_high ≤ e.p90_high ∧ e.p90_high ≤ e.record_high)
      ∧ (e.record_low ≤ e.p10_low ∧ e.p10_low ≤ e.p25_low
        ∧ e.p25_low ≤ e.p75_low ∧ e.p75_low ≤ e.p90_low)
      ∧ e.record_high = round1 (listMax (allDailyHighs historical e.date))
      ∧ e.record_low = round1 (listMin (allDailyLows historical e.date)))
    ∧ ∀ key : String,
        (allDailyHighs historical key).length < 5
          ∨ (allDailyLows historical key).length < 5 →
        ∀ e ∈ historical_envelope historical, e.date ≠ key := by
  constructor
  · intro e he
    obtain ⟨md, hmd, hf⟩ := List.mem_filterMap.mp he
    simp only [envEntry] at hf
    by_cases hc : (sortT (allDailyHighs historical md)).length < 5
        ∨ (sortT (allDailyLows historical md)).length < 5
    · rw [if_pos hc] at hf
      cases hf
    · rw [if_neg hc] at hf
      push_neg at hc
      obtain ⟨h5h, h5l⟩ := hc
      obtain rfl := Option.some.inj hf
      have hsh := sortT_sorted (allDailyHighs historical md)
      have hsl := sortT_sorted (allDailyLows historical md)
      have hneh : sortT (allDailyHighs historical md) ≠ [] := by
        intro h0
        rw [h0] at h5h
        simp at h5h
      have hnel : sortT (allDailyLows historical md) ≠ [] := by
        intro h0
        rw [h0] at h5l
        simp at h5l
      have hrawh : allDailyHighs historical md ≠ [] := by
        intro h0
        apply hneh
        rw [h0]
        rfl
      have hrawl : allDailyLows historical md ≠ [] := by
        intro h0
        apply hnel
        rw [h0]
        rfl
      refine ⟨⟨?_, ?_, ?_, ?_⟩, ⟨?_, ?_, ?_, ?_⟩, ?_, ?_⟩
      · apply round1_le
        apply sorted_getD_le hsh
        · rw [floor_tenth, floor_quarter]
          omega
        · rw [floor_quarter]
          omega
      · apply round1_le
        apply sorted_getD_le hsh
        · rw [floor_quarter, floor_three_quarters]
          omega
        · rw [floor_three_quarters]
          omega
      · apply round1_le
        apply sorted_getD_le hsh
        · rw [floor_three_quarters, floor_nine_tenths]
          omega
        · rw [floor_nine_tenths]
          omega
      · apply round1_le
        apply le_listMax
        apply getD_mem
        rw [floor_nine_tenths]
        omega
      · apply round1_le
        apply listMin_le
        apply getD_mem
        rw [floor_tenth]
        omega
      · apply round1_le
        apply sorted_getD_le hsl
        · rw [floor_tenth, floor_quarter]
          omega
        · rw [floor_quarter]
          omega
      · apply round1_le
        apply sorted_getD_le hsl
        · rw [floor_quarter, floor_three_quarters]
          omega
        · rw [floor_three_quarters]
          omega
      · apply round1_le
        apply sorted_getD_le hsl
        · rw [floor_three_quarters, floor_nine_tenths]
          omega
        · rw [floor_nine_tenths]
          omega
      · show round1 (listMax (sortT (allDailyHighs historical md)))
          = round1 (listMax (allDailyHighs historical md))
        rw [listMax_sortT hrawh]
      · show round1 (listMin (sortT (allDailyLows historical md)))
          = round1 (listMin (allDailyLows historical md))
        rw [listMin_sortT hrawl]
  · intro key hlt e he heq
    obtain ⟨md, hmd, hf⟩ := List.mem_filterMap.mp he
    have hdate := envEntry_date hf
    have hmdkey : md = key := by rw [← hdate, heq]
    subst hmdkey
    have hnone : envEntry md (allDailyHighs historical md)
        (allDailyLows historical md) = none := by
      apply envEntry_none_of_short
      rw [sortT_length, sortT_length]
      exact hlt
    rw [hnone] at hf
    cases hf

/-- C2 witness: the "01-01" envelope row of the ten-year sample has ordered
percentiles between the record extremes. -/
theorem claim_C2_instance :
    W10env ∈ historical_envelope W10
    ∧ W10env.p10_high ≤ W10env.p25_high
    ∧ W10env.p90_high ≤ W10env.record_high
    ∧ W10env.record_low ≤ W10env.p10_low := by
  have h := (claim_C2 W10).1 W10env W10env_mem
  exact ⟨W10env_mem, h.1.1, h.1.2.2.2, h.2.1.1⟩

/-- C3 (amended): per month, `record_high` is the maximum over all days of
that month whose high is present (regardless of the low), with the year of
the first such occurrence in processing order; `record_low` is symmetric
over present lows.  Validity of the whole day is not required here. -/
theorem claim_C3 (historical : Historical) (m : Nat) :
    (monthHighEvents historical m ≠ [] →
      (∀ p ∈ monthHighEvents historical m, (-999 : ℚ) < p.2) →
      (monthly_records historical m).record_high
          = listMax ((monthHighEvents historical m).map Prod.snd)
        ∧ (monthly_records historical m).record_high_year
          = (((monthHighEvents historical m).find? fun p =>
              p.2 == listMax ((monthHighEvents historical m).map Prod.snd)).map
                Prod.fst).getD "")
    ∧ (monthLowEvents historical m ≠ [] →
      (∀ p ∈ monthLowEvents historical m, p.2 < (999 : ℚ)) →
      (monthly_records historical m).record_low
          = listMin ((monthLowEvents historical m).map Prod.snd)
        ∧ (monthly_records historical m).record_low_year
          = (((monthLowEvents historical m).find? fun p =>
              p.2 == listMin ((monthLowEvents historical m).map Prod.snd)).map
                Prod.fst).getD "") :=
  ⟨fun hne hall => records_high_spec historical m hne hall,
   fun hne hall => records_low_spec historical m hne hall⟩

/-- C3 counterexample: one July day has high 100 with a missing low (an
invalid day), another is fully valid at 50/40; the computed July record high
is 100 but the maximum among the valid July highs is 50, so the record pass
does not exclude invalid days. -/
theorem claim_C3_cex :
    (monthly_records CE3 7).record_high = 100
    ∧ monthlyHistHighs CE3 7 = [50]
    ∧ listMax (monthlyHistHighs CE3 7) = 50
    ∧ (monthly_records CE3 7).record_high ≠ listMax (monthlyHistHighs CE3 7) := by
  refine ⟨by decide, by decide, by decide, by decide⟩

/-- C3 witness: two years tie at a July high of 50 and low of 10; the
records take the maximum/minimum with the first (earliest-year) occurrence,
year "1996". -/
theorem claim_C3_instance :
    (monthly_records TIE 7).record_high
        = listMax ((monthHighEvents TIE 7).map Prod.snd)
    ∧ (monthly_records TIE 7).record_high_year
        = (((monthHighEvents TIE 7).find? fun p =>
            p.2 == listMax ((monthHighEvents TIE 7).map Prod.snd)).map
              Prod.fst).getD ""
    ∧ (monthly_records TIE 7).record_high_year = "1996"
    ∧ (monthly_records TIE 7).record_low_year = "1996" := by
  have h := (claim_C3 TIE 7).1 (by decide) (by decide)
  exact ⟨h.1, h.2, by decide, by decide⟩

/-- C5 (amended): a calendar month none of whose historical days has a
present high nor a present low (in particular it has zero valid days) gets
null normals and null records, but its record years are the empty string
rather than null. -/
theorem claim_C5 (historical : Historical) (current : YearData) (m : Nat)
    (hh : monthHighEvents historical m = [])
    (hl : monthLowEvents historical m = []) :
    (monthlyEntry historical current m).normal_high = none
    ∧ (monthlyEntry historical current m).normal_low = none
    ∧ (monthlyEntry historical current m).record_high = none
    ∧ (monthlyEntry historical current m).record_low = none
    ∧ (monthlyEntry historical current m).record_high_year = ""
    ∧ (monthlyEntry historical current m).record_low_year = "" := by
  have hhh := monthlyHistHighs_nil historical m hh
  have hll := monthlyHistLows_nil historical m hl
  have hrh := records_high_empty historical m hh
  have hrl := records_low_empty historical m hl
  norm_num [monthlyEntry, hhh, hll, hrh.1, hrh.2, hrl.1, hrl.2]

/-- C5 counterexample: January of the sample has zero valid days (its only
day has a missing low), yet the emitted January record high is 50 rather
than null; the record-low year is the empty string rather than null. -/
theorem claim_C5_cex :
    monthlyHistHighs CE5 1 = []
    ∧ monthlyHistLows CE5 1 = []
    ∧ (monthlyEntry CE5 emptyYear 1).record_high = some 50
    ∧ (monthlyEntry CE5 emptyYear 1).record_high ≠ none
    ∧ (monthlyEntry CE5 emptyYear 1).record_low_year = "" := by
  refine ⟨by decide, by decide, by decide, by decide, by decide⟩

/-- C5 witness: February of the sample has no observations at all, so its
normals and records are null and its record years are empty strings. -/
theorem claim_C5_instance :
    (monthlyEntry CE5 emptyYear 2).normal_high = none
    ∧ (monthlyEntry CE5 emptyYear 2).record_high = none
    ∧ (monthlyEntry CE5 emptyYear 2).record_high_year = "" := by
  have h := claim_C5 CE5 emptyYear 2 (by decide) (by decide)
  exact ⟨h.1, h.2.2.1, h.2.2.2.2.1⟩

end DenverTemp
